import Mathlib

/-!
Shallow embedding of the admission-control core of the `ai-code-reviewer`
repository: the shared module (`shared.js`: rate limiting, bot detection,
identity resolution, input validation) and the serverless request handler.

JavaScript numbers that hold millisecond timestamps and counters are modelled
as `Int`; JavaScript strings as Lean `String`; a JS value that may be a string
or `undefined` (used as a Map key) as `Option String`.  The process-wide
`rateLimitStore` Map is modelled by explicit state passing of a lookup
function.
-/

namespace AiCodeReviewer

/-- Constant `RATE_LIMIT.MAX_REQUESTS` from `shared.js`. -/
def MAX_REQUESTS : Int := 10

/-- Constant `RATE_LIMIT.WINDOW_MS` from `shared.js` (1 hour in milliseconds). -/
def WINDOW_MS : Int := 60 * 60 * 1000

/-- Constant `RATE_LIMIT.MAX_CODE_LENGTH` from `shared.js`. -/
def MAX_CODE_LENGTH : Nat := 10000

/-- A JS string-or-`undefined` value: `rateLimitStore` keys can be `undefined`
(e.g. `forwarded[0]` on an empty array), and a JS `Map` distinguishes the
`undefined` key from the string `"undefined"`. -/
abbrev JKey := Option String

/-- An entry of `rateLimitStore`: `{ count, resetTime }`. -/
structure Record where
  count : Int
  resetTime : Int
deriving DecidableEq, Repr

/-- The value returned by `checkRateLimit`. -/
structure RLResult where
  allowed : Bool
  remaining : Int
  resetTime : Int
deriving DecidableEq, Repr

/-- The in-memory `rateLimitStore` Map, as its lookup function. -/
def Store : Type := JKey → Option Record

/-- Map update `rateLimitStore.set(key, r)`. -/
def Store.set (s : Store) (k : JKey) (r : Record) : Store :=
  fun k' => if k' = k then some r else s k'

/-- A freshly created (empty) `rateLimitStore`. -/
def emptyStore : Store := fun _ => none

/-- Function `checkRateLimit(key, maxRequests)` from `shared.js`, with the implicit
inputs (the store and `Date.now()`) passed explicitly and the mutated store
returned alongside the result. -/
def checkRateLimit (s : Store) (key : JKey) (maxRequests : Int) (now : Int) :
    RLResult × Store :=
  match s key with
  | none =>
      -- `if (!record || now > record.resetTime)`, `!record` arm
      (⟨true, maxRequests - 1, now + WINDOW_MS⟩, s.set key ⟨1, now + WINDOW_MS⟩)
  | some record =>
      if now > record.resetTime then
        (⟨true, maxRequests - 1, now + WINDOW_MS⟩, s.set key ⟨1, now + WINDOW_MS⟩)
      else if record.count ≥ maxRequests then
        (⟨false, 0, record.resetTime⟩, s)
      else
        -- `record.count++` happens before `remaining` is computed
        (⟨true, maxRequests - (record.count + 1), record.resetTime⟩,
         s.set key ⟨record.count + 1, record.resetTime⟩)

/-- A dynamically-typed JS value, as far as `validateInput` inspects one. -/
inductive JsVal where
  | undef
  | vnull
  | vbool (b : Bool)
  | vnum (n : Int)
  | vstr (s : String)
deriving DecidableEq, Repr

/-- JS truthiness of a `JsVal`. -/
def JsVal.truthy : JsVal → Bool
  | .undef => false
  | .vnull => false
  | .vbool b => b
  | .vnum n => n != 0
  | .vstr s => s != ""

/-- Test `typeof v === 'string'`. -/
def JsVal.isString : JsVal → Bool
  | .vstr _ => true
  | _ => false

/-- The underlying string of a `JsVal` known to be a string. -/
def JsVal.strVal : JsVal → String
  | .vstr s => s
  | _ => ""

/-- The characters removed by JS `String.prototype.trim` (ASCII portion). -/
def isJsWhitespace (c : Char) : Bool :=
  c = ' ' || c = '\t' || c = '\n' || c = '\r' || c = '\x0b' || c = '\x0c'

/-- JS `code.trim()`: strip leading and trailing whitespace. -/
def jsTrim (s : String) : String :=
  ⟨((s.data.dropWhile isJsWhitespace).reverse.dropWhile isJsWhitespace).reverse⟩

/-- The value returned by `validateInput`: `{ valid, error? }`. -/
structure ValidationResult where
  valid : Bool
  error : Option String
deriving DecidableEq, Repr

/-- Function `validateInput(code)` from `shared.js`. -/
def validateInput (code : JsVal) : ValidationResult :=
  if !code.truthy || !code.isString then
    ⟨false, some "Code is required"⟩
  else
    -- here `code` is a non-empty string
    let s := code.strVal
    if (jsTrim s).length = 0 then
      ⟨false, some "Code cannot be empty"⟩
    else if s.length > MAX_CODE_LENGTH then
      ⟨false, some ("Code is too long. Maximum " ++ toString MAX_CODE_LENGTH
        ++ " characters allowed.")⟩
    else
      ⟨true, none⟩

/-- A Node header value: a string or an array of strings. -/
inductive HVal where
  | hstr (s : String)
  | harr (l : List String)
deriving DecidableEq, Repr

/-- JS truthiness of a header value (any array is truthy, even `[]`). -/
def HVal.truthy : HVal → Bool
  | .hstr s => s != ""
  | .harr _ => true

/-- The `req.headers` object, as an association list. -/
abbrev Headers := List (String × HVal)

/-- Header lookup `headers[name]`: `none` models `undefined`. -/
def hGet (h : Headers) (name : String) : Option HVal :=
  (h.find? (fun p => p.1 == name)).map (·.2)

/-- Truthiness of `headers[name]` (`undefined` is falsy). -/
def hvTruthy : Option HVal → Bool
  | none => false
  | some v => v.truthy

/-- The slice of a Node/Vercel request object that the admission layer reads.
`headers = none` models a request object without a usable `headers` object;
`socketRemoteAddress` models `req.socket?.remoteAddress`. -/
structure Req where
  headers : Option Headers
  socketRemoteAddress : Option String
  method : String
  bodyCode : JsVal

/-- JS `'a,b'.split(',')[0].trim()`. -/
def splitFirstTrim (s : String) : String :=
  jsTrim ((s.splitOn ",").headD "")

/-- Function `getRateLimitKey(req)` from `shared.js`.  Accessing a header on a missing
`headers` object throws a `TypeError`, modelled by `Except.error ()`.  The
result is a `JKey` because `forwarded[0]` on an empty array header is
`undefined`. -/
def getRateLimitKey (req : Req) : Except Unit JKey :=
  match req.headers with
  | none => .error ()
  | some h =>
    let forwarded := hGet h "x-forwarded-for"
    let realIp := hGet h "x-real-ip"
    let connectionIp := req.socketRemoteAddress
    -- the source initialises `let ip = 'unknown'`, but every branch of the
    -- chain below overwrites `ip`, so the arms producing "unknown" here are
    -- unreachable (they correspond to the dead initial value)
    if hvTruthy forwarded then
      match forwarded with
      | some (.harr l) => .ok l.head?
      | some (.hstr s) => .ok (some (splitFirstTrim s))
      | none => .ok (some "unknown")
    else if hvTruthy realIp then
      match realIp with
      | some (.harr l) => .ok l.head?
      | some (.hstr s) => .ok (some s)
      | none => .ok (some "unknown")
    else
      match connectionIp with
      | some s => if s ≠ "" then .ok (some s) else .ok (some "local")
      | none => .ok (some "local")

/-- JS `s.toLowerCase()` (character-wise lowering, as `String.toLower`
does). -/
def jsToLower (s : String) : String := ⟨s.data.map Char.toLower⟩

/-- Substring test on character lists, the recursion behind `strIncludes`. -/
def hasSubL (pat : List Char) : List Char → Bool
  | [] => pat.isEmpty
  | l@(_ :: rest) => (pat.isPrefixOf l) || hasSubL pat rest

/-- JS `s.includes(pat)`. -/
def strIncludes (s pat : String) : Bool := hasSubL pat.data s.data

/-- The fixed user-agent denylist of `detectBot`. -/
def botPatterns : List String :=
  ["bot", "crawler", "spider", "scraper", "curl", "wget",
   "python", "java", "go-http", "postman", "insomnia",
   "headless", "phantom", "selenium", "puppeteer"]

/-- Function `detectBot(req)` from `shared.js`.  Reading headers off a missing
`headers` object, or calling `.toLowerCase()` on an array-valued
`user-agent`, throws (`Except.error ()`). -/
def detectBot (req : Req) : Except Unit Bool :=
  match req.headers with
  | none => .error ()
  | some h =>
    match hGet h "user-agent" with
    | some (.harr _) => .error ()
    | uaOpt =>
      -- `req.headers['user-agent']?.toLowerCase() || ''`
      let userAgent : String :=
        match uaOpt with
        | some (.hstr s) => jsToLower s
        | _ => ""
      let referer := hGet h "referer"
      let isBotUA := botPatterns.any (fun pattern => strIncludes userAgent pattern)
      let hasAcceptHeader := hvTruthy (hGet h "accept")
      let hasAcceptLanguage := hvTruthy (hGet h "accept-language")
      let suspiciousHeaders := !hasAcceptHeader && !hasAcceptLanguage
      let noReferer := !(hvTruthy referer) && (req.method == "POST")
      .ok (isBotUA || (suspiciousHeaders && noReferer))

/-- The JSON response shapes produced by the serverless handler. -/
inductive HResp where
  | methodNotAllowed
  | rateLimited (resetTime : Int) (isBot : Bool)
  | badRequest (error : String)
  | serverConfigError
  | reviewOk (review : String) (remaining : Int) (resetTime : Int)
  | upstreamError (message : String)
deriving DecidableEq, Repr

/-- The HTTP status attached to each response shape. -/
def HResp.status : HResp → Nat
  | .methodNotAllowed => 405
  | .rateLimited .. => 429
  | .badRequest _ => 400
  | .serverConfigError => 500
  | .reviewOk .. => 200
  | .upstreamError _ => 500

/-- What a handler run produces: the response, the store after the run, and
whether `callOpenAI` was invoked. -/
structure HandlerOutcome where
  resp : HResp
  store : Store
  openAICalled : Bool

/-- The serverless `handler(req, res)` (api/review.ts variant), with the
completion call abstracted as `openai`, the `OPENAI_API_KEY` environment
variable as `apiKey`, and the store and clock passed explicitly. -/
def handler (openai : String → Except String String) (apiKey : Option String)
    (now : Int) (s : Store) (req : Req) : Except Unit HandlerOutcome :=
  if req.method ≠ "POST" then .ok ⟨.methodNotAllowed, s, false⟩
  else
    match detectBot req, getRateLimitKey req with
    | .error e, _ => .error e
    | .ok _, .error e => .error e
    | .ok isBot, .ok rateLimitKey =>
      -- `Math.floor(RATE_LIMIT.MAX_REQUESTS / 2)`
      let effectiveMaxRequests := if isBot then MAX_REQUESTS / 2 else MAX_REQUESTS
      let p := checkRateLimit s rateLimitKey effectiveMaxRequests now
      if p.1.allowed = false then
        .ok ⟨.rateLimited p.1.resetTime isBot, p.2, false⟩
      else
        let validation := validateInput req.bodyCode
        if validation.valid = false then
          .ok ⟨.badRequest (validation.error.getD ""), p.2, false⟩
        else
          match apiKey with
          | none => .ok ⟨.serverConfigError, p.2, false⟩
          | some _ =>
            match openai req.bodyCode.strVal with
            | .ok review => .ok ⟨.reviewOk review p.1.remaining p.1.resetTime, p.2, true⟩
            | .error msg => .ok ⟨.upstreamError msg, p.2, true⟩

/-- Run `checkRateLimit` for the same key and quota at each time in `times`,
threading the store; collect the results. -/
def runCalls (s : Store) (key : JKey) (q : Int) : List Int → List RLResult × Store
  | [] => ([], s)
  | t :: ts =>
      ((checkRateLimit s key q t).1 ::
         (runCalls (checkRateLimit s key q t).2 key q ts).1,
       (runCalls (checkRateLimit s key q t).2 key q ts).2)

/-- Expected results of `n` in-window calls against a record currently at
count `c` with reset time `R`, under quota `q`. -/
def expect (q R : Int) : Int → Nat → List RLResult
  | _, 0 => []
  | c, n + 1 =>
      if c < q then RLResult.mk true (q - (c + 1)) R :: expect q R (c + 1) n
      else RLResult.mk false 0 R :: expect q R c n

/-- The count after `n` in-window calls starting from count `c` under quota
`q`. -/
def bump (q : Int) : Int → Nat → Int
  | c, 0 => c
  | c, n + 1 => bump q (if c < q then c + 1 else c) n

/-- The key has no live record at time `now`: no entry, or an expired one. -/
def freshFor (s : Store) (key : JKey) (now : Int) : Prop :=
  s key = none ∨ ∃ r, s key = some r ∧ now > r.resetTime

/-- The lower-cased user-agent string an admission check sees (empty when
the header is absent). -/
def uaLowerOf (h : Headers) : String :=
  match hGet h "user-agent" with
  | some (.hstr s) => jsToLower s
  | _ => ""

/-- A well-formed optional header value: absent, or a non-empty string. -/
def cleanHV (v : Option HVal) : Prop :=
  v = none ∨ ∃ s, v = some (.hstr s) ∧ s ≠ ""

/-- A request whose `headers` object is absent. -/
def reqNoHeaders : Req := ⟨none, some "203.0.113.1", "POST", .vstr "x"⟩

/-- A request carrying a multi-valued `x-forwarded-for` string. -/
def reqFwd : Req :=
  ⟨some [("x-forwarded-for", .hstr " 1.2.3.4 , 5.6.7.8")], none, "POST",
   .undef⟩

/-- A curl request (user-agent in the denylist). -/
def reqCurl : Req :=
  ⟨some [("user-agent", .hstr "curl/8.0"), ("accept", .hstr "*/*")],
   some "198.51.100.3", "POST", .vstr "code"⟩

/-- A plain browser-like POST request with an empty `code` payload. -/
def reqEmptyCode : Req :=
  ⟨some [("accept", .hstr "*/*")], some "192.0.2.55", "POST", .vstr ""⟩

@[simp] theorem Store.set_same (s : Store) (k : JKey) (r : Record) :
    s.set k r k = some r := by
  simp [Store.set]

theorem Store.set_other (s : Store) (k k' : JKey) (r : Record) (h : k' ≠ k) :
    s.set k r k' = s k' := by
  simp [Store.set, h]

theorem runCalls_window (q R : Int) (key : JKey) :
    ∀ (ts : List Int) (s : Store) (c : Int),
      s key = some ⟨c, R⟩ → (∀ t ∈ ts, t ≤ R) →
      (runCalls s key q ts).1 = expect q R c ts.length ∧
      (runCalls s key q ts).2 key = some ⟨bump q c ts.length, R⟩ := by
  intro ts
  induction ts with
  | nil => intro s c hs _; exact ⟨rfl, by simpa [runCalls, bump] using hs⟩
  | cons t ts ih =>
    intro s c hs hts
    have ht : ¬ t > R := by
      have := hts t (by simp)
      omega
    by_cases hc : c < q
    · have hstep : checkRateLimit s key q t =
          (⟨true, q - (c + 1), R⟩, s.set key ⟨c + 1, R⟩) := by
        simp [checkRateLimit, hs, ht]
        omega
      have hnext : (s.set key ⟨c + 1, R⟩) key = some ⟨c + 1, R⟩ :=
        Store.set_same s key _
      obtain ⟨h1, h2⟩ := ih (s.set key ⟨c + 1, R⟩) (c + 1) hnext
        (fun t' ht' => hts t' (by simp [ht']))
      refine ⟨?_, ?_⟩
      · simp [runCalls, hstep, h1, expect, hc]
      · simp [runCalls, hstep, h2, bump, hc]
    · have hstep : checkRateLimit s key q t = (⟨false, 0, R⟩, s) := by
        simp [checkRateLimit, hs, ht]
        omega
      obtain ⟨h1, h2⟩ := ih s c hs (fun t' ht' => hts t' (by simp [ht']))
      refine ⟨?_, ?_⟩
      · simp [runCalls, hstep, h1, expect, hc]
      · simp [runCalls, hstep, h2, bump, hc]

theorem expect_all_allowed (q R : Int) :
    ∀ (n : Nat) (c : Int), c + n ≤ q →
      expect q R c n =
        (List.range n).map
          (fun i : Nat => RLResult.mk true (q - (c + 1 + (i : Int))) R) := by
  intro n
  induction n with
  | zero => intro c _; simp [expect]
  | succ n ih =>
    intro c hc
    have hc' : c + ((n : Int) + 1) ≤ q := by push_cast at hc; omega
    have hlt : c < q := by
      have : (0 : Int) ≤ (n : Int) := Int.ofNat_nonneg n
      omega
    have hexp : expect q R c (n + 1) =
        RLResult.mk true (q - (c + 1)) R :: expect q R (c + 1) n := by
      simp [expect, hlt]
    rw [hexp, ih (c + 1) (by omega), List.range_succ_eq_map, List.map_cons,
      List.map_map]
    refine List.cons_eq_cons.mpr ⟨by norm_num, ?_⟩
    symm
    refine List.map_congr_left ?_
    intro i _
    simp only [Function.comp_apply]
    congr 1
    push_cast
    ring

theorem expect_exhausted (q R c : Int) (h : q ≤ c) :
    ∀ n, expect q R c n = List.replicate n (RLResult.mk false 0 R) := by
  intro n
  induction n with
  | zero => simp [expect]
  | succ n ih =>
    have : ¬ c < q := by omega
    simp [expect, this, ih, List.replicate_succ]

theorem expect_append (q R : Int) :
    ∀ (m k : Nat) (c : Int),
      expect q R c (m + k) = expect q R c m ++ expect q R (bump q c m) k := by
  intro m
  induction m with
  | zero => intro k c; simp [expect, bump]
  | succ m ih =>
    intro k c
    have hsum : m + 1 + k = (m + k) + 1 := by omega
    rw [hsum]
    by_cases hc : c < q
    · simp [expect, bump, hc, ih k (c + 1)]
    · simp [expect, bump, hc, ih k c]

theorem bump_min (q : Int) :
    ∀ (n : Nat) (c : Int), c ≤ q → bump q c n = min (c + n) q := by
  intro n
  induction n with
  | zero => intro c hc; simp [bump]; omega
  | succ n ih =>
    intro c hc
    by_cases h : c < q
    · have := ih (c + 1) (by omega)
      simp [bump, h, this]
      omega
    · have hcq : c = q := by omega
      have := ih c hc
      simp [bump, h, this]
      omega

theorem checkRateLimit_fresh (s : Store) (key : JKey) (q now : Int)
    (h : freshFor s key now) :
    checkRateLimit s key q now =
      (RLResult.mk true (q - 1) (now + WINDOW_MS),
       s.set key ⟨1, now + WINDOW_MS⟩) := by
  rcases h with h | ⟨r, hr, hgt⟩
  · simp [checkRateLimit, h]
  · simp [checkRateLimit, hr, hgt]

/-- C1: for every identity and quota `q ≥ 1`, starting from no record (or an
expired record) and staying within one window, the first `q` calls to
`checkRateLimit` each return `allowed = true` with `remaining` strictly
decreasing from `q - 1` down to `0`, and the `(q+1)`-th call returns
`allowed = false` with `remaining = 0`. -/
theorem c1_rate_limiter_quota_window (key : JKey) (q : Nat) (hq : 1 ≤ q)
    (s0 : Store) (t0 : Int) (ts : List Int)
    (hfresh : freshFor s0 key t0)
    (hlen : ts.length = q)
    (hts : ∀ t ∈ ts, t ≤ t0 + WINDOW_MS) :
    (runCalls s0 key (q : Int) (t0 :: ts)).1 =
      (List.range q).map
        (fun i : Nat => RLResult.mk true ((q : Int) - 1 - (i : Int))
          (t0 + WINDOW_MS))
      ++ [RLResult.mk false 0 (t0 + WINDOW_MS)] := by
  obtain ⟨m, rfl⟩ : ∃ m, q = m + 1 := ⟨q - 1, by omega⟩
  have hstep := checkRateLimit_fresh s0 key ((m + 1 : Nat) : Int) t0 hfresh
  have hcons : (runCalls s0 key ((m + 1 : Nat) : Int) (t0 :: ts)).1 =
      RLResult.mk true (((m + 1 : Nat) : Int) - 1) (t0 + WINDOW_MS) ::
        (runCalls (s0.set key ⟨1, t0 + WINDOW_MS⟩) key ((m + 1 : Nat) : Int)
          ts).1 := by
    simp only [runCalls]
    rw [hstep]
  obtain ⟨h1, -⟩ := runCalls_window ((m + 1 : Nat) : Int) (t0 + WINDOW_MS) key
    ts (s0.set key ⟨1, t0 + WINDOW_MS⟩) 1 (Store.set_same _ _ _) hts
  have hone : (1 : Int) ≤ ((m + 1 : Nat) : Int) := by push_cast; omega
  have hb : bump ((m + 1 : Nat) : Int) 1 m = ((m + 1 : Nat) : Int) := by
    rw [bump_min _ m 1 hone]
    push_cast
    omega
  rw [hcons, h1, hlen, expect_append _ _ m 1 1, hb,
    expect_exhausted _ _ _ le_rfl 1,
    expect_all_allowed _ _ m 1 (by push_cast; omega),
    List.range_succ_eq_map, List.map_cons, List.map_map, List.cons_append]
  refine List.cons_eq_cons.mpr ⟨by norm_num, ?_⟩
  rw [List.replicate_one]
  refine congrArg (· ++ _) ?_
  symm
  refine List.map_congr_left ?_
  intro i _
  simp only [Function.comp_apply]
  congr 1
  push_cast
  ring

/-- Witness for C1 at `q = 2`, a fresh key, and calls at times 0, 1, 2. -/
theorem c1_rate_limiter_quota_window_witness :
    (runCalls emptyStore (some "203.0.113.7") ((2 : Nat) : Int)
        (0 :: [1, 2])).1 =
      (List.range 2).map
        (fun i : Nat => RLResult.mk true (((2 : Nat) : Int) - 1 - (i : Int))
          (0 + WINDOW_MS))
      ++ [RLResult.mk false 0 (0 + WINDOW_MS)] :=
  c1_rate_limiter_quota_window (some "203.0.113.7") 2 (by omega) emptyStore 0
    [1, 2] (Or.inl rfl) rfl (by decide)

/-- C2: a call against a live (unexpired) record whose count has reached the
quota returns `allowed = false, remaining = 0` and leaves the store — hence
the stored `resetTime` and `count` — unchanged; moreover, under a quota
`q ≥ 1`, a record's count never exceeds `q` across any call made with quota
`q`. -/
theorem c2_rejection_immutable_and_count_bounded :
    (∀ (s : Store) (key : JKey) (q now : Int) (r : Record),
        s key = some r → ¬ now > r.resetTime → r.count ≥ q →
        checkRateLimit s key q now = (RLResult.mk false 0 r.resetTime, s)) ∧
    (∀ (s : Store) (key : JKey) (q now : Int), 1 ≤ q →
        (∀ r, s key = some r → r.count ≤ q) →
        ∀ r', (checkRateLimit s key q now).2 key = some r' → r'.count ≤ q) := by
  constructor
  · intro s key q now r hr hnow hq
    simp [checkRateLimit, hr, hnow, hq]
  · intro s key q now hq hinv r' hr'
    rcases hs : s key with _ | r
    · have h2 : (checkRateLimit s key q now).2 key =
          some ⟨1, now + WINDOW_MS⟩ := by
        simp [checkRateLimit, hs]
      rw [h2] at hr'
      injection hr' with h3
      subst h3
      show (1 : Int) ≤ q
      omega
    · by_cases hexp : now > r.resetTime
      · have h2 : (checkRateLimit s key q now).2 key =
            some ⟨1, now + WINDOW_MS⟩ := by
          simp [checkRateLimit, hs, hexp]
        rw [h2] at hr'
        injection hr' with h3
        subst h3
        show (1 : Int) ≤ q
        omega
      · by_cases hcnt : r.count ≥ q
        · have h2 : (checkRateLimit s key q now).2 key = s key := by
            simp [checkRateLimit, hs, hexp, hcnt]
          rw [h2, hs] at hr'
          injection hr' with h3
          subst h3
          exact hinv _ hs
        · have h2 : (checkRateLimit s key q now).2 key =
              some ⟨r.count + 1, r.resetTime⟩ := by
            simp [checkRateLimit, hs, hexp, hcnt]
          rw [h2] at hr'
          injection hr' with h3
          subst h3
          have := hinv r hs
          show r.count + 1 ≤ q
          omega

/-- Witness for C2: a full record `⟨3, 100⟩` at quota 3 inside the window is
rejected without touching the store, and the record written by a quota-3 call
on an empty store respects the bound. -/
theorem c2_rejection_immutable_and_count_bounded_witness :
    checkRateLimit (emptyStore.set (some "198.51.100.9") ⟨3, 100⟩)
        (some "198.51.100.9") 3 50 =
      (RLResult.mk false 0 100, emptyStore.set (some "198.51.100.9") ⟨3, 100⟩) ∧
    (Record.mk 1 (50 + WINDOW_MS)).count ≤ 3 :=
  ⟨c2_rejection_immutable_and_count_bounded.1 _ _ 3 50 ⟨3, 100⟩ rfl
      (by decide) (by decide),
   c2_rejection_immutable_and_count_bounded.2 emptyStore (some "198.51.100.9")
      3 50 (by decide) (fun _ h => nomatch h) ⟨1, 50 + WINDOW_MS⟩ rfl⟩

/-- C3: once the current time is past the stored `resetTime` (or no record
exists), the next call overwrites the record with `count = 1` and
`resetTime = now + WINDOW_MS` and returns `allowed = true` with
`remaining = quota - 1`, regardless of how exhausted the old record was. -/
theorem c3_window_reset (s : Store) (key : JKey) (q now : Int)
    (h : freshFor s key now) :
    checkRateLimit s key q now =
      (RLResult.mk true (q - 1) (now + WINDOW_MS),
       s.set key ⟨1, now + WINDOW_MS⟩) ∧
    (s.set key ⟨1, now + WINDOW_MS⟩) key = some ⟨1, now + WINDOW_MS⟩ :=
  ⟨checkRateLimit_fresh s key q now h, Store.set_same s key _⟩

/-- Witness for C3: an exhausted record `⟨10, 100⟩` is overwritten by a call
at time 101. -/
theorem c3_window_reset_witness :
    checkRateLimit (emptyStore.set (some "192.0.2.1") ⟨10, 100⟩)
        (some "192.0.2.1") 10 101 =
      (RLResult.mk true (10 - 1) (101 + WINDOW_MS),
       (emptyStore.set (some "192.0.2.1") ⟨10, 100⟩).set (some "192.0.2.1")
         ⟨1, 101 + WINDOW_MS⟩) ∧
    ((emptyStore.set (some "192.0.2.1") ⟨10, 100⟩).set (some "192.0.2.1")
        ⟨1, 101 + WINDOW_MS⟩) (some "192.0.2.1") =
      some ⟨1, 101 + WINDOW_MS⟩ :=
  c3_window_reset _ _ 10 101 (Or.inr ⟨⟨10, 100⟩, rfl, by decide⟩)

/-- C9: the store is keyed by identity alone and the window written into
`resetTime` is always `WINDOW_MS`, independent of the quota argument: a first
call under quota `q1` writes `⟨1, t1 + WINDOW_MS⟩` (touching no other key),
and a second in-window call for the same identity under a different quota
`q2` reads that same shared record. -/
theorem c9_store_shared_across_quotas (s : Store) (key : JKey)
    (q1 q2 t1 t2 : Int) (hfresh : s key = none)
    (hwin : t2 ≤ t1 + WINDOW_MS) :
    (checkRateLimit s key q1 t1).2 key = some ⟨1, t1 + WINDOW_MS⟩ ∧
    (∀ k, k ≠ key → (checkRateLimit s key q1 t1).2 k = s k) ∧
    (checkRateLimit (checkRateLimit s key q1 t1).2 key q2 t2).1 =
      (if (1 : Int) ≥ q2 then RLResult.mk false 0 (t1 + WINDOW_MS)
       else RLResult.mk true (q2 - 2) (t1 + WINDOW_MS)) := by
  have h1 : (checkRateLimit s key q1 t1).2 = s.set key ⟨1, t1 + WINDOW_MS⟩ := by
    simp [checkRateLimit, hfresh]
  refine ⟨by rw [h1]; exact Store.set_same s key _,
    fun k hk => by rw [h1]; exact Store.set_other s key k _ hk, ?_⟩
  rw [h1]
  have hexp : ¬ t2 > t1 + WINDOW_MS := by omega
  by_cases hc : (1 : Int) ≥ q2
  · simp [checkRateLimit, Store.set_same, hexp, hc]
  · simp [checkRateLimit, Store.set_same, hexp, hc]

/-- Witness for C9: a bot-quota (2) call followed by a human-quota (10) call
for the same identity share one record. -/
theorem c9_store_shared_across_quotas_witness :
    (checkRateLimit emptyStore (some "198.51.100.77") 2 0).2
        (some "198.51.100.77") = some ⟨1, 0 + WINDOW_MS⟩ ∧
    (checkRateLimit (checkRateLimit emptyStore (some "198.51.100.77") 2 0).2
        (some "198.51.100.77") 10 1).1 =
      (if (1 : Int) ≥ 10 then RLResult.mk false 0 (0 + WINDOW_MS)
       else RLResult.mk true (10 - 2) (0 + WINDOW_MS)) :=
  ⟨(c9_store_shared_across_quotas emptyStore (some "198.51.100.77") 2 10 0 1
      rfl (by decide)).1,
   (c9_store_shared_across_quotas emptyStore (some "198.51.100.77") 2 10 0 1
      rfl (by decide)).2.2⟩

/-- C10: on a fresh (or expired) key the call is always allowed, whatever the
quota `q` — even `q = 0` — returning `remaining = q - 1` and storing
`count = 1`; for `q ≤ 0` the returned `remaining` is negative and the stored
count already exceeds the quota. -/
theorem c10_fresh_call_allowed_any_quota (s : Store) (key : JKey)
    (q now : Int) (h : freshFor s key now) :
    (checkRateLimit s key q now).1 =
      RLResult.mk true (q - 1) (now + WINDOW_MS) ∧
    (checkRateLimit s key q now).2 key = some ⟨1, now + WINDOW_MS⟩ ∧
    (q ≤ 0 → (checkRateLimit s key q now).1.remaining < 0 ∧
      ∀ r', (checkRateLimit s key q now).2 key = some r' → q < r'.count) := by
  have hc := checkRateLimit_fresh s key q now h
  refine ⟨by rw [hc], by rw [hc]; exact Store.set_same s key _,
    fun hq => ⟨by rw [hc]; show q - 1 < 0; omega, fun r' hr' => ?_⟩⟩
  rw [hc] at hr'
  simp only [Store.set_same, Option.some.injEq] at hr'
  subst hr'
  show q < 1
  omega

/-- Witness for C10 at quota 0: the first call is still allowed, with
`remaining = -1` and stored count 1 exceeding the quota. -/
theorem c10_fresh_call_allowed_any_quota_witness :
    (checkRateLimit emptyStore (some "203.0.113.50") 0 5).1 =
      RLResult.mk true (0 - 1) (5 + WINDOW_MS) ∧
    (checkRateLimit emptyStore (some "203.0.113.50") 0 5).1.remaining < 0 ∧
    (0 : Int) < (Record.mk 1 (5 + WINDOW_MS)).count :=
  ⟨(c10_fresh_call_allowed_any_quota emptyStore (some "203.0.113.50") 0 5
      (Or.inl rfl)).1,
   ((c10_fresh_call_allowed_any_quota emptyStore (some "203.0.113.50") 0 5
      (Or.inl rfl)).2.2 (by decide)).1,
   ((c10_fresh_call_allowed_any_quota emptyStore (some "203.0.113.50") 0 5
      (Or.inl rfl)).2.2 (by decide)).2 ⟨1, 5 + WINDOW_MS⟩ rfl⟩

theorem length_mk (l : List Char) : (String.mk l).length = l.length := rfl

theorem length_eq_zero_iff (s : String) : s.length = 0 ↔ s = "" := by
  cases s with
  | mk data =>
    constructor
    · intro h
      have hd : data = [] := List.length_eq_zero.mp h
      subst hd
      rfl
    · intro h
      rw [h]
      rfl

theorem dropWhile_ws_replicate (n : Nat) (l : List Char) :
    List.dropWhile isJsWhitespace (List.replicate n ' ' ++ l) =
      List.dropWhile isJsWhitespace l := by
  induction n with
  | zero => simp
  | succ n ih =>
    have hsp : isJsWhitespace ' ' = true := by decide
    simp [List.replicate_succ, List.dropWhile_cons, hsp, ih]

theorem jsTrim_replicate_space (n : Nat) :
    jsTrim (String.mk (List.replicate n ' ')) = "" := by
  have h1 := dropWhile_ws_replicate n ([] : List Char)
  simp only [List.append_nil, List.dropWhile_nil] at h1
  show String.mk
    ((((List.replicate n ' ').dropWhile isJsWhitespace).reverse).dropWhile
      isJsWhitespace).reverse = ""
  rw [h1]
  rfl

theorem jsTrim_char_then_spaces (n : Nat) (c : Char)
    (hc : isJsWhitespace c = false) :
    jsTrim (String.mk (c :: List.replicate n ' ')) = String.mk [c] := by
  have h2 : ((((c :: List.replicate n ' ').dropWhile
      isJsWhitespace).reverse).dropWhile isJsWhitespace).reverse = [c] := by
    rw [List.dropWhile_cons_of_neg (by simp [hc]), List.reverse_cons,
      List.reverse_replicate, dropWhile_ws_replicate,
      List.dropWhile_cons_of_neg (by simp [hc])]
    simp
  exact congrArg String.mk h2

theorem validateInput_required (v : JsVal)
    (hv : v.truthy = false ∨ v.isString = false) :
    validateInput v = ⟨false, some "Code is required"⟩ := by
  rcases hv with hv | hv <;> simp [validateInput, hv]

theorem validateInput_empty (s : String) (hne : s ≠ "")
    (htrim : jsTrim s = "") :
    validateInput (.vstr s) = ⟨false, some "Code cannot be empty"⟩ := by
  simp [validateInput, JsVal.truthy, JsVal.isString, JsVal.strVal, hne, htrim]

theorem validateInput_too_long (s : String) (hne : s ≠ "")
    (htl : (jsTrim s).length ≠ 0) (hlen : s.length > MAX_CODE_LENGTH) :
    validateInput (.vstr s) =
      ⟨false, some "Code is too long. Maximum 10000 characters allowed."⟩ := by
  have hmsg : ("Code is too long. Maximum " ++ toString MAX_CODE_LENGTH
      ++ " characters allowed.") =
      "Code is too long. Maximum 10000 characters allowed." := by decide
  simp [validateInput, JsVal.truthy, JsVal.isString, JsVal.strVal, hne, htl,
    hlen, hmsg]

theorem validateInput_accepts (s : String) (hne : s ≠ "")
    (htl : (jsTrim s).length ≠ 0) (hlen : ¬ s.length > MAX_CODE_LENGTH) :
    validateInput (.vstr s) = ⟨true, none⟩ := by
  simp [validateInput, JsVal.truthy, JsVal.isString, JsVal.strVal, hne, htl,
    hlen]

/-- Counterexample to C4: the empty string is string-typed with trimmed
length 0, yet `validateInput` returns "Code is required" (the JS falsiness
guard `!code` catches `""` first), not "Code cannot be empty". -/
theorem c4_counterexample :
    validateInput (.vstr "") = ⟨false, some "Code is required"⟩ ∧
    validateInput (.vstr "") ≠ ⟨false, some "Code cannot be empty"⟩ := by
  constructor
  · decide
  · decide

/-- C4 (amended): `validateInput` checks its rules in order with first
failure winning: every falsy input (absent, null, `""`, `0`, `false`) and
every non-string input yields "Code is required"; every NON-EMPTY string
whose trimmed length is 0 yields "Code cannot be empty".  (The claim's
placement of `""` under the second rule is what the counterexample
refutes.) -/
theorem c4_validation_order :
    (∀ v : JsVal, v.truthy = false ∨ v.isString = false →
        validateInput v = ⟨false, some "Code is required"⟩) ∧
    (∀ s : String, s ≠ "" → jsTrim s = "" →
        validateInput (.vstr s) = ⟨false, some "Code cannot be empty"⟩) :=
  ⟨validateInput_required, validateInput_empty⟩

/-- Witness for C4 (amended): a number yields "Code is required"; a
whitespace-only non-empty string yields "Code cannot be empty". -/
theorem c4_validation_order_witness :
    validateInput (.vnum 7) = ⟨false, some "Code is required"⟩ ∧
    validateInput (.vstr " ") = ⟨false, some "Code cannot be empty"⟩ :=
  ⟨c4_validation_order.1 (.vnum 7) (Or.inr rfl),
   c4_validation_order.2 " " (by decide) (by decide)⟩

/-- Counterexample to C8: a whitespace-only string of raw length 10001 is
rejected by the emptiness rule, not with a message stating the length
limit. -/
theorem c8_counterexample :
    (String.mk (List.replicate 10001 ' ')).length = 10001 ∧
    validateInput (.vstr (String.mk (List.replicate 10001 ' '))) =
      ⟨false, some "Code cannot be empty"⟩ ∧
    validateInput (.vstr (String.mk (List.replicate 10001 ' '))) ≠
      ⟨false, some "Code is too long. Maximum 10000 characters allowed."⟩ := by
  have hlen : (String.mk (List.replicate 10001 ' ')).length = 10001 := by
    rw [length_mk, List.length_replicate]
  have hne : String.mk (List.replicate 10001 ' ') ≠ "" := by
    intro h
    rw [h] at hlen
    exact absurd hlen (by decide)
  have hval : validateInput (.vstr (String.mk (List.replicate 10001 ' '))) =
      ⟨false, some "Code cannot be empty"⟩ :=
    validateInput_empty _ hne (jsTrim_replicate_space 10001)
  refine ⟨hlen, hval, ?_⟩
  rw [hval]
  decide

/-- C8 (amended): every string of raw length exactly 10000 that is not
whitespace-only is accepted; every string of raw length 10001 that is not
whitespace-only is rejected with the message stating the 10000-character
limit (whitespace-only strings fall under the emptiness rule instead). -/
theorem c8_boundary_lengths :
    (∀ s : String, s.length = 10000 → jsTrim s ≠ "" →
        validateInput (.vstr s) = ⟨true, none⟩) ∧
    (∀ s : String, s.length = 10001 → jsTrim s ≠ "" →
        validateInput (.vstr s) =
          ⟨false, some "Code is too long. Maximum 10000 characters allowed."⟩)
    := by
  constructor
  · intro s hlen htrim
    have hne : s ≠ "" := by
      intro h
      rw [h] at hlen
      exact absurd hlen (by decide)
    exact validateInput_accepts s hne
      (fun h => htrim ((length_eq_zero_iff _).mp h))
      (by rw [hlen]; decide)
  · intro s hlen htrim
    have hne : s ≠ "" := by
      intro h
      rw [h] at hlen
      exact absurd hlen (by decide)
    exact validateInput_too_long s hne
      (fun h => htrim ((length_eq_zero_iff _).mp h))
      (by rw [hlen]; decide)

/-- Witness for C8 (amended) at the exact boundary lengths. -/
theorem c8_boundary_lengths_witness :
    validateInput (.vstr (String.mk ('a' :: List.replicate 9999 ' '))) =
      ⟨true, none⟩ ∧
    validateInput (.vstr (String.mk ('a' :: List.replicate 10000 ' '))) =
      ⟨false, some "Code is too long. Maximum 10000 characters allowed."⟩ :=
  ⟨c8_boundary_lengths.1 _
      (by rw [length_mk, List.length_cons, List.length_replicate])
      (by rw [jsTrim_char_then_spaces 9999 'a' (by decide)]; decide),
   c8_boundary_lengths.2 _
      (by rw [length_mk, List.length_cons, List.length_replicate])
      (by rw [jsTrim_char_then_spaces 10000 'a' (by decide)]; decide)⟩

/-- Counterexample to C5: on a request with no `headers` object,
`getRateLimitKey` throws a `TypeError` (the header access) instead of
returning `"unknown"`. -/
theorem c5_counterexample :
    getRateLimitKey reqNoHeaders = Except.error () ∧
    getRateLimitKey reqNoHeaders ≠ Except.ok (some "unknown") := by
  constructor
  · rfl
  · simp [getRateLimitKey, reqNoHeaders]

/-- C5 (amended): the identity resolver applies the precedence
`x-forwarded-for` (first comma-separated value, trimmed), then `x-real-ip`,
then the socket remote address, and returns the literal `"local"` when none
are present; but when the `headers` object itself is absent it THROWS
(`"unknown"` is only the dead initial value of `ip`, never returned). -/
theorem c5_key_precedence :
    (∀ (req : Req) (h : Headers) (s : String), req.headers = some h →
        hGet h "x-forwarded-for" = some (.hstr s) → s ≠ "" →
        getRateLimitKey req = .ok (some (splitFirstTrim s))) ∧
    (∀ (req : Req) (h : Headers) (s : String), req.headers = some h →
        hvTruthy (hGet h "x-forwarded-for") = false →
        hGet h "x-real-ip" = some (.hstr s) → s ≠ "" →
        getRateLimitKey req = .ok (some s)) ∧
    (∀ (req : Req) (h : Headers) (ip : String), req.headers = some h →
        hvTruthy (hGet h "x-forwarded-for") = false →
        hvTruthy (hGet h "x-real-ip") = false →
        req.socketRemoteAddress = some ip → ip ≠ "" →
        getRateLimitKey req = .ok (some ip)) ∧
    (∀ (req : Req) (h : Headers), req.headers = some h →
        hvTruthy (hGet h "x-forwarded-for") = false →
        hvTruthy (hGet h "x-real-ip") = false →
        (req.socketRemoteAddress = none ∨ req.socketRemoteAddress = some "") →
        getRateLimitKey req = .ok (some "local")) ∧
    (∀ req : Req, req.headers = none →
        getRateLimitKey req = .error ()) := by
  refine ⟨?_, ?_, ?_, ?_, ?_⟩
  · intro req h s hh hfwd hs
    simp [getRateLimitKey, hh, hfwd, hvTruthy, HVal.truthy, hs]
  · intro req h s hh hfwd hrip hs
    simp [getRateLimitKey, hh, hfwd, hrip]
    intro hcontra
    exact absurd hcontra (by simp [hvTruthy, HVal.truthy, hs])
  · intro req h ip hh hfwd hrip hsock hip
    simp [getRateLimitKey, hh, hfwd, hrip, hsock, hip]
  · intro req h hh hfwd hrip hsock
    rcases hsock with hsock | hsock <;>
      simp [getRateLimitKey, hh, hfwd, hrip, hsock]
  · intro req hh
    simp [getRateLimitKey, hh]

/-- Witness for C5 (amended): a forwarded chain resolves to its first
trimmed entry; a header-less request throws. -/
theorem c5_key_precedence_witness :
    getRateLimitKey reqFwd =
      Except.ok (some (splitFirstTrim " 1.2.3.4 , 5.6.7.8")) ∧
    getRateLimitKey reqNoHeaders = Except.error () :=
  ⟨c5_key_precedence.1 reqFwd _ " 1.2.3.4 , 5.6.7.8" rfl rfl (by decide),
   c5_key_precedence.2.2.2.2 reqNoHeaders rfl⟩

theorem isPrefixOf_iff_append (p : List Char) :
    ∀ m, p.isPrefixOf m = true ↔ ∃ t, m = p ++ t := by
  induction p with
  | nil =>
    intro m
    simp [List.isPrefixOf]
  | cons a as ih =>
    intro m
    cases m with
    | nil => simp [List.isPrefixOf]
    | cons b bs =>
      simp only [List.isPrefixOf, Bool.and_eq_true, beq_iff_eq, ih,
        List.cons_append, List.cons.injEq]
      constructor
      · rintro ⟨rfl, t, rfl⟩
        exact ⟨t, rfl, rfl⟩
      · rintro ⟨t, rfl, rfl⟩
        exact ⟨rfl, t, rfl⟩

theorem hasSubL_iff_append (pat : List Char) :
    ∀ l, hasSubL pat l = true ↔ ∃ l1 l2, l = l1 ++ pat ++ l2 := by
  intro l
  induction l with
  | nil =>
    simp only [hasSubL, List.isEmpty_iff]
    constructor
    · rintro rfl
      exact ⟨[], [], rfl⟩
    · rintro ⟨l1, l2, h⟩
      rcases List.append_eq_nil.mp h.symm with ⟨h12, h2⟩
      rcases List.append_eq_nil.mp h12 with ⟨-, hpat⟩
      exact hpat
  | cons a l ih =>
    simp only [hasSubL, Bool.or_eq_true, isPrefixOf_iff_append, ih]
    constructor
    · rintro (⟨t, ht⟩ | ⟨l1, l2, rfl⟩)
      · exact ⟨[], t, by simpa using ht⟩
      · exact ⟨a :: l1, l2, by simp⟩
    · rintro ⟨l1, l2, h⟩
      cases l1 with
      | nil =>
        exact Or.inl ⟨l2, by simpa using h⟩
      | cons c l1 =>
        rw [List.cons_append, List.cons_append] at h
        injection h with h1 h2
        exact Or.inr ⟨l1, l2, h2⟩

theorem cleanHV_falsy_iff (v : Option HVal) (h : cleanHV v) :
    hvTruthy v = false ↔ v = none := by
  rcases h with rfl | ⟨s, rfl, hs⟩
  · simp [hvTruthy]
  · simp [hvTruthy, HVal.truthy, hs]

theorem detectBot_ok (req : Req) (h : Headers) (hh : req.headers = some h)
    (hua : hGet h "user-agent" = none ∨
      ∃ s, hGet h "user-agent" = some (.hstr s)) :
    detectBot req = Except.ok
      (botPatterns.any (fun pattern => strIncludes (uaLowerOf h) pattern) ||
       ((!hvTruthy (hGet h "accept") && !hvTruthy (hGet h "accept-language"))
        && (!hvTruthy (hGet h "referer") && (req.method == "POST")))) := by
  rcases hua with hua | ⟨us, hua⟩ <;>
    simp [detectBot, hh, hua, uaLowerOf]

/-- C6: for any request whose `user-agent` is absent or a string and whose
`accept`, `accept-language` and `referer` headers are absent or non-empty
strings, `detectBot` does not throw, and returns `true` exactly when the
lower-cased user-agent contains one of the fixed denylist substrings, OR
both `accept` and `accept-language` are absent AND the method is `POST`
with no `referer` — a plain disjunction, not a weighted score. -/
theorem c6_detect_bot_structure (req : Req) (h : Headers)
    (hh : req.headers = some h)
    (hua : hGet h "user-agent" = none ∨
      ∃ s, hGet h "user-agent" = some (.hstr s))
    (hacc : cleanHV (hGet h "accept"))
    (hal : cleanHV (hGet h "accept-language"))
    (href : cleanHV (hGet h "referer")) :
    detectBot req ≠ Except.error () ∧
    (detectBot req = Except.ok true ↔
      ((∃ p ∈ botPatterns,
          ∃ l1 l2, (uaLowerOf h).data = l1 ++ p.data ++ l2) ∨
       (hGet h "accept" = none ∧ hGet h "accept-language" = none ∧
        req.method = "POST" ∧ hGet h "referer" = none))) := by
  rw [detectBot_ok req h hh hua]
  constructor
  · simp
  · simp only [Except.ok.injEq, Bool.or_eq_true, Bool.and_eq_true,
      Bool.not_eq_true', List.any_eq_true, beq_iff_eq]
    refine or_congr ?_ ?_
    · refine exists_congr fun p => and_congr_right fun _ => ?_
      exact hasSubL_iff_append p.data (uaLowerOf h).data
    · rw [cleanHV_falsy_iff _ hacc, cleanHV_falsy_iff _ hal,
        cleanHV_falsy_iff _ href]
      tauto

/-- Witness for C6: a `curl/8.0` user-agent is classified as a bot via the
denylist disjunct. -/
theorem c6_detect_bot_structure_witness :
    detectBot reqCurl = Except.ok true :=
  (c6_detect_bot_structure reqCurl
      [("user-agent", .hstr "curl/8.0"), ("accept", .hstr "*/*")] rfl
      (Or.inr ⟨"curl/8.0", rfl⟩) (Or.inr ⟨"*/*", rfl, by decide⟩)
      (Or.inl rfl) (Or.inl rfl)).2.mpr
    (Or.inl ⟨"curl", by decide, [], "/8.0".data, by decide⟩)

theorem checkRateLimit_allowed_store (s : Store) (key : JKey) (q now : Int)
    (hallow : (checkRateLimit s key q now).1.allowed = true) :
    (s key = none →
      (checkRateLimit s key q now).2 key = some ⟨1, now + WINDOW_MS⟩) ∧
    (∀ r, s key = some r → now > r.resetTime →
      (checkRateLimit s key q now).2 key = some ⟨1, now + WINDOW_MS⟩) ∧
    (∀ r, s key = some r → ¬ now > r.resetTime →
      (checkRateLimit s key q now).2 key =
        some ⟨r.count + 1, r.resetTime⟩) := by
  refine ⟨fun hs => by simp [checkRateLimit, hs],
    fun r hs hexp => by simp [checkRateLimit, hs, hexp],
    fun r hs hexp => ?_⟩
  by_cases hcnt : r.count ≥ q
  · have hfalse : (checkRateLimit s key q now).1.allowed = false := by
      simp [checkRateLimit, hs, hexp, hcnt]
    rw [hallow] at hfalse
    exact absurd hfalse (by decide)
  · simp [checkRateLimit, hs, hexp, hcnt]

/-- C7: in the serverless handler the rate-limit check precedes input
validation: for every POST request that passes the rate-limit check but
fails validation, the handler returns the 400 `badRequest` response with the
validation error, never invokes the completion client, and keeps the store
produced by the rate-limit check — the consumed slot (count set to 1 on a
fresh/expired record, incremented otherwise) is not restored. -/
theorem c7_rate_limit_before_validation
    (openai : String → Except String String) (apiKey : Option String)
    (now : Int) (s : Store) (req : Req) (isBot : Bool) (key : JKey)
    (e : String)
    (hm : req.method = "POST")
    (hbot : detectBot req = .ok isBot)
    (hkey : getRateLimitKey req = .ok key)
    (hallowed : (checkRateLimit s key
      (if isBot then MAX_REQUESTS / 2 else MAX_REQUESTS) now).1.allowed
        = true)
    (hval : validateInput req.bodyCode = ⟨false, some e⟩) :
    handler openai apiKey now s req =
      .ok ⟨.badRequest e,
        (checkRateLimit s key
          (if isBot then MAX_REQUESTS / 2 else MAX_REQUESTS) now).2,
        false⟩ ∧
    (HResp.badRequest e).status = 400 ∧
    ((s key = none →
        (checkRateLimit s key
          (if isBot then MAX_REQUESTS / 2 else MAX_REQUESTS) now).2 key =
          some ⟨1, now + WINDOW_MS⟩) ∧
     (∀ r, s key = some r → now > r.resetTime →
        (checkRateLimit s key
          (if isBot then MAX_REQUESTS / 2 else MAX_REQUESTS) now).2 key =
          some ⟨1, now + WINDOW_MS⟩) ∧
     (∀ r, s key = some r → ¬ now > r.resetTime →
        (checkRateLimit s key
          (if isBot then MAX_REQUESTS / 2 else MAX_REQUESTS) now).2 key =
          some ⟨r.count + 1, r.resetTime⟩)) := by
  refine ⟨?_, rfl, checkRateLimit_allowed_store s key _ now hallowed⟩
  simp [handler, hm, hbot, hkey, hallowed, hval]

/-- Witness for C7: an allowed request (fresh store) with empty code gets
400 "Code is required", the completion client is not called, and the
post-check store is kept. -/
theorem c7_rate_limit_before_validation_witness :
    handler (fun _ => .error "stub") (some "sk-test") 0 emptyStore
        reqEmptyCode =
      .ok ⟨.badRequest "Code is required",
        (checkRateLimit emptyStore (some "192.0.2.55") MAX_REQUESTS 0).2,
        false⟩ :=
  (c7_rate_limit_before_validation (fun _ => .error "stub") (some "sk-test")
      0 emptyStore reqEmptyCode false (some "192.0.2.55") "Code is required"
      rfl rfl rfl rfl rfl).1

end AiCodeReviewer
